import Mathlib

/-!
Shallow embedding of src/parser/ozon_parser.py (classes OzonParser and
OzonWorker).  External collaborators that are not part of this file of the
repository (the selenium driver, the helper functions from utils.helpers,
the pydantic models) are modelled abstractly, as explained on each
definition.  Configuration constants (MAX_ARTICLES_PER_WORKER, MAX_WORKERS,
MAX_RETRIES) are passed as explicit parameters.
-/

namespace OzonPriceParser

/-- Modelled from the spec: `PriceInfo` from models/schemas.py is not under
src/.  Per the spec data model it carries a numeric price, optional price
variants, and an optional best-effort product title.  The source mutates the
`title` field after construction (`price_info.title = title`). -/
structure PriceInfo where
  price : Nat
  original_price : Option Nat := none
  title : Option String := none
deriving Repr, DecidableEq

/-- Modelled from the spec: `ArticleResult` from models/schemas.py is not
under src/.  Per the spec it carries the input identifier, a success flag,
and optional `price_info` / `error` fields; fields that a construction site
in ozon_parser.py does not pass default to absent. -/
structure ArticleResult where
  article : Nat
  success : Bool
  price_info : Option PriceInfo := none
  error : Option String := none
deriving Repr, DecidableEq

/-- Modelled from the spec: the helper functions imported from
utils.helpers and the stdlib JSON parsing used by
`OzonWorker.extract_price_info` are not under src/; they are kept abstract
as a record of functions.  `json_loads_widget_states` combines
`json.loads` (whose decode failure is modelled as `none`; the source
catches `json.JSONDecodeError` and returns `None`) with
`data.get('widgetStates', {})`; widget states are modelled as a key/value
association list.  `find_web_price_property` and `find_product_title` may
return `none` or an empty string, both of which the source treats as falsy.
`parse_price_data` returns a `PriceInfo` only when numeric parsing
succeeds, per the spec. -/
structure ExtractHelpers where
  is_valid_json_response : String → Bool
  json_loads_widget_states : String → Option (List (String × String))
  find_web_price_property : List (String × String) → Option String
  parse_price_data : String → Option PriceInfo
  find_product_title : List (String × String) → Option String

/-- Embedding of `OzonWorker.extract_price_info` (src/parser/ozon_parser.py
lines 246-301).  Each early `return None` of the source is a `none` branch
here; the falsy checks `if not widget_states`, `if not web_price_value`,
`if title` are rendered with explicit emptiness tests. -/
def extract_price_info (h : ExtractHelpers) (json_content : String) : Option PriceInfo :=
  if h.is_valid_json_response json_content = false then none
  else
    match h.json_loads_widget_states json_content with
    | none => none
    | some widget_states =>
      if widget_states.isEmpty then none
      else
        match h.find_web_price_property widget_states with
        | none => none
        | some web_price_value =>
          if web_price_value = "" then none
          else
            match h.parse_price_data web_price_value with
            | none => none
            | some price_info =>
              match h.find_product_title widget_states with
              | none => some price_info
              | some title =>
                if title = "" then some price_info
                else some { price_info with title := some title }

/-- State of an `OzonWorker` instance: `driver` is `some ()` once
`initialize` has succeeded (`self.driver = self.selenium_manager.setup_driver()`),
`none` before. -/
structure OzonWorker where
  driver : Option Unit
deriving Repr, DecidableEq

/-- Embedding of the method `OzonWorker.extract_price_info` as called on a
worker instance: the source method reads no worker state (it only uses
module-level helpers and logging), so the worker argument is unused. -/
def OzonWorker.extract_price_info (_w : OzonWorker) (h : ExtractHelpers)
    (json_content : String) : Option PriceInfo :=
  OzonPriceParser.extract_price_info h json_content

/-- Observable outcome of the environment during one attempt of the
fetch-and-extract pipeline of `parse_single_article`:
`raise msg` — some call in the `try` block raised an exception with
description `msg`; `navFail` — `navigate_to_url` returned `False`;
`payloadNone` — navigation succeeded and `wait_for_json_response` returned
`None`; `payload s` — navigation succeeded and `wait_for_json_response`
returned the text `s` (the source treats the empty string as falsy, like
`None`). -/
inductive AttemptEvent where
  | raise (msg : String)
  | navFail
  | payloadNone
  | payload (s : String)
deriving Repr, DecidableEq

/-- Which terminal branch of `parse_single_article` produced the returned
`ArticleResult` (instrumentation; `exhausted` is the fallback after the
`for` loop, lines 240-244). -/
inductive ExitBranch where
  | success
  | navFailed
  | noPayload
  | extractFailed
  | exception
  | exhausted
deriving Repr, DecidableEq

/-- One iteration of the retry loop of `parse_single_article`
(src/parser/ozon_parser.py lines 148-238) for a given attempt event.
`final` is the source condition `attempt < settings.MAX_RETRIES - 1`
negated, i.e. `final = true` on the last attempt.  A `none` result models
`continue` (retry after `time.sleep(RETRY_DELAY)`); a `some` result models
an explicit `return`, tagged with the branch that produced it. -/
def run_attempt (h : ExtractHelpers) (article : Nat) (e : AttemptEvent)
    (final : Bool) : Option (ArticleResult × ExitBranch) :=
  match e with
  | .raise msg =>
    if final then some ({ article := article, success := false, error := some msg }, .exception)
    else none
  | .navFail =>
    if final then
      some ({ article := article, success := false, error := some "Failed to navigate to URL" }, .navFailed)
    else none
  | .payloadNone =>
    if final then
      some ({ article := article, success := false, error := some "No JSON response received" }, .noPayload)
    else none
  | .payload s =>
    if s = "" then
      if final then
        some ({ article := article, success := false, error := some "No JSON response received" }, .noPayload)
      else none
    else
      match extract_price_info h s with
      | some price_info =>
        some ({ article := article, success := true, price_info := some price_info }, .success)
      | none =>
        if final then
          some ({ article := article, success := false, error := some "Failed to extract price info" }, .extractFailed)
        else none

/-- The retry loop of `parse_single_article`: `attempt` is the current
attempt index, `remaining` how many attempts are left (initially
`MAX_RETRIES`); when `remaining` reaches 0 the loop has completed and the
fallback result of lines 240-244 is returned.  The result is instrumented
with the exit branch and the number of attempts executed. -/
def parse_single_article_aux (h : ExtractHelpers) (article : Nat)
    (env : Nat → AttemptEvent) : Nat → Nat → ArticleResult × ExitBranch × Nat
  | _, 0 =>
    ({ article := article, success := false, error := some "Max retries exceeded" }, .exhausted, 0)
  | attempt, remaining + 1 =>
    match run_attempt h article (env attempt) (remaining == 0) with
    | some (r, b) => (r, b, 1)
    | none =>
      let rest := parse_single_article_aux h article env (attempt + 1) remaining
      (rest.1, rest.2.1, rest.2.2 + 1)

/-- Embedding of `OzonWorker.parse_single_article` (lines 144-244):
the `ArticleResult` returned for one article, given the environment
behaviour `env` (event of each attempt) and `maxRetries`
(= `settings.MAX_RETRIES`). -/
def parse_single_article (h : ExtractHelpers) (article : Nat)
    (env : Nat → AttemptEvent) (maxRetries : Nat) : ArticleResult :=
  (parse_single_article_aux h article env 0 maxRetries).1

/-- Instrumentation: which terminal branch `parse_single_article` exits
through. -/
def exitBranchOf (h : ExtractHelpers) (article : Nat)
    (env : Nat → AttemptEvent) (maxRetries : Nat) : ExitBranch :=
  (parse_single_article_aux h article env 0 maxRetries).2.1

/-- Instrumentation: how many iterations of the retry loop (invocations of
the fetch-and-extract pipeline) `parse_single_article` executes. -/
def attemptsUsed (h : ExtractHelpers) (article : Nat)
    (env : Nat → AttemptEvent) (maxRetries : Nat) : Nat :=
  (parse_single_article_aux h article env 0 maxRetries).2.2

/-- An attempt event leads to the `SUCCESS` branch iff navigation
succeeded, a non-empty payload arrived, and extraction yields a price. -/
def attemptSucceeds (h : ExtractHelpers) (e : AttemptEvent) : Bool :=
  match e with
  | .payload s => !(s == "") && (extract_price_info h s).isSome
  | _ => false

/-- Embedding of `OzonWorker.parse_articles` (lines 130-142): raises
`RuntimeError` when the worker is uninitialized (modelled as `.error`),
otherwise processes the assigned articles strictly sequentially, the
article at position `i` seeing the attempt environment `env i`. -/
def OzonWorker.parse_articles (w : OzonWorker) (h : ExtractHelpers)
    (env : Nat → Nat → AttemptEvent) (maxRetries : Nat)
    (articles : List Nat) : Except String (List ArticleResult) :=
  if w.driver.isNone then .error "Worker not initialized"
  else .ok (articles.enum.map (fun p => parse_single_article h p.2 (env p.1) maxRetries))

/-- Embedding of the dictionary lookup in
`OzonParser._sort_results_by_original_order` (lines 100-105):
`result_dict = {result.article: result for result in results}` maps an
article value to the LAST result with that article inserted, so the lookup
is the last element of `results` whose `article` field equals `a`
(`none` when the key is absent). -/
def lookupLast (results : List ArticleResult) (a : Nat) : Option ArticleResult :=
  (results.filter (fun r => r.article == a)).getLast?

/-- Embedding of `OzonParser._sort_results_by_original_order` (lines
100-105): `[result_dict[article] for article in original_articles if
article in result_dict]`. -/
def sort_results_by_original_order (results : List ArticleResult)
    (original_articles : List Nat) : List ArticleResult :=
  original_articles.filterMap (fun a => lookupLast results a)

/-- The chunking loop of `OzonParser._distribute_articles` (lines 51-57):
`for i in range(0, total, cap): groups.append(articles[i:i+cap]);
if len(groups) >= MAX_WORKERS: break`.  `fuel` is initially the length of
the list; for `0 < cap` it never runs out before the list does, so the
fuel pattern is only a termination device (for `cap = 0` the source raises
`ValueError` from `range`, a case outside every claim). -/
def chunkLoop (cap maxWorkers : Nat) : Nat → List Nat → Nat → List (List Nat)
  | _, [], _ => []
  | 0, _ :: _, _ => []
  | fuel + 1, a :: rest, ngroups =>
    let group := (a :: rest).take cap
    if maxWorkers ≤ ngroups + 1 then [group]
    else group :: chunkLoop cap maxWorkers fuel ((a :: rest).drop cap) (ngroups + 1)

/-- Embedding of `OzonParser._distribute_articles` (lines 42-58), with
`cap = settings.MAX_ARTICLES_PER_WORKER` and
`maxWorkers = settings.MAX_WORKERS` as explicit parameters. -/
def distribute_articles (cap maxWorkers : Nat) (articles : List Nat) : List (List Nat) :=
  if articles.length ≤ cap then [articles]
  else chunkLoop cap maxWorkers articles.length articles 0

/-- Environment of one batch call: `initOk i` — whether the worker created
for group index `i` initializes successfully (`setup_driver` does not
raise); `events i p k` — the attempt event seen by group `i`, position
`p` within the group, attempt `k`; `order` — the indices of the submitted
futures in the order `concurrent.futures.as_completed` yields them (a
permutation of the group indices in any real execution).  The
single-worker path uses group index 0. -/
structure ParserEnv where
  initOk : Nat → Bool
  events : Nat → Nat → Nat → AttemptEvent
  order : List Nat

/-- Embedding of `OzonParser._parse_worker_group` (lines 89-98) and
equally of the body of `_parse_with_single_worker` (lines 60-69): create a
worker, `initialize()` (whose failure re-raises, modelled as `.error`),
then `worker.parse_articles(articles)`; `close()` in the `finally` block
does not affect the returned value. -/
def parse_worker_group (e : ParserEnv) (h : ExtractHelpers) (maxRetries : Nat)
    (groupIdx : Nat) (articles : List Nat) : Except String (List ArticleResult) :=
  if e.initOk groupIdx then
    OzonWorker.parse_articles { driver := some () } h (e.events groupIdx) maxRetries articles
  else .error "Failed to initialize worker"

/-- Embedding of `OzonParser._parse_with_single_worker` (lines 60-69). -/
def parse_with_single_worker (e : ParserEnv) (h : ExtractHelpers)
    (maxRetries : Nat) (articles : List Nat) : Except String (List ArticleResult) :=
  parse_worker_group e h maxRetries 0 articles

/-- The collection loop of `_parse_with_multiple_workers` (lines 82-85):
`for future in as_completed(futures): all_results.extend(future.result())`.
`future.result()` re-raises an exception raised inside the group task, so
the first errored future aborts the whole collection. -/
def collect : List (Except String (List ArticleResult)) → Except String (List ArticleResult)
  | [] => .ok []
  | .error m :: _ => .error m
  | .ok l :: rest =>
    match collect rest with
    | .error m => .error m
    | .ok ls => .ok (l ++ ls)

/-- The list of futures submitted by `_parse_with_multiple_workers` (lines
76-80), one per group, identified by their outcome: the value
`future.result()` would deliver for the worker of each group. -/
def groupRuns (e : ParserEnv) (h : ExtractHelpers) (maxRetries : Nat)
    (worker_groups : List (List Nat)) : List (Except String (List ArticleResult)) :=
  worker_groups.enum.map (fun p => parse_worker_group e h maxRetries p.1 p.2)

/-- The futures in the order `concurrent.futures.as_completed` yields
them, given by the index list `e.order`. -/
def completedRuns (e : ParserEnv) (h : ExtractHelpers) (maxRetries : Nat)
    (worker_groups : List (List Nat)) : List (Except String (List ArticleResult)) :=
  e.order.filterMap (fun i => (groupRuns e h maxRetries worker_groups)[i]?)

/-- Embedding of `OzonParser._parse_with_multiple_workers` (lines 71-87):
one future per group, results gathered in completion order `e.order`,
then reordered to the original article order. -/
def parse_with_multiple_workers (e : ParserEnv) (h : ExtractHelpers)
    (maxRetries : Nat) (worker_groups : List (List Nat))
    (original_articles : List Nat) : Except String (List ArticleResult) :=
  match collect (completedRuns e h maxRetries worker_groups) with
  | .error m => .error m
  | .ok all_results => .ok (sort_results_by_original_order all_results original_articles)

/-- Embedding of `OzonParser.parse_articles` (lines 31-40), the public
batch entry point.  Note the source passes the FULL `articles` list to
`_parse_with_single_worker` whenever exactly one group was formed. -/
def OzonParser.parse_articles (e : ParserEnv) (h : ExtractHelpers)
    (cap maxWorkers maxRetries : Nat) (articles : List Nat) :
    Except String (List ArticleResult) :=
  let worker_groups := distribute_articles cap maxWorkers articles
  if worker_groups.length == 1 then parse_with_single_worker e h maxRetries articles
  else parse_with_multiple_workers e h maxRetries worker_groups articles

/-- The spec's `ArticleResult` field invariant: `price_info` present and
`error` absent when `success`, `error` present and `price_info` absent when
not. -/
def resultWF (r : ArticleResult) : Prop :=
  (r.success = true → r.price_info.isSome = true ∧ r.error = none) ∧
  (r.success = false → r.error.isSome = true ∧ r.price_info = none)

/-- Whether an `Except` value is an error (a raised exception at the
Python level). -/
def exceptErr (x : Except String (List ArticleResult)) : Bool :=
  match x with
  | .error _ => true
  | .ok _ => false

/-- Concrete helper instance on which extraction always succeeds with
price 999 and no title. -/
def hOk : ExtractHelpers where
  is_valid_json_response := fun _ => true
  json_loads_widget_states := fun _ => some [("w", "v")]
  find_web_price_property := fun _ => some "p"
  parse_price_data := fun _ => some { price := 999 }
  find_product_title := fun _ => none

/-- Concrete helper instance that rejects every payload as invalid JSON. -/
def hBad : ExtractHelpers :=
  { hOk with is_valid_json_response := fun _ => false }

/-- Concrete environment: every worker initializes, every attempt yields a
good payload, completion order 0 then 1. -/
def envAllOk : ParserEnv where
  initOk := fun _ => true
  events := fun _ _ _ => .payload "x"
  order := [0, 1]

/-- Concrete environment in which the worker of group 0 fails to
initialize while everything else succeeds. -/
def envInit0Fails : ParserEnv :=
  { envAllOk with initOk := fun i => !(i == 0) }

/-- Concrete environment in which the article at position 0 of each group
succeeds and every later position permanently fails navigation. -/
def envPosFail : ParserEnv where
  initOk := fun _ => true
  events := fun _ p _ => if p == 0 then .payload "x" else .navFail
  order := [0, 1]

lemma run_attempt_article {h : ExtractHelpers} {a : Nat} {e : AttemptEvent} {fin : Bool}
    {r : ArticleResult} {b : ExitBranch} (hr : run_attempt h a e fin = some (r, b)) :
    r.article = a := by
  cases e <;> simp only [run_attempt] at hr <;> (repeat' split at hr) <;> aesop

lemma run_attempt_final_isSome (h : ExtractHelpers) (a : Nat) (e : AttemptEvent) :
    (run_attempt h a e true).isSome = true := by
  cases e <;> simp only [run_attempt] <;> (repeat' split) <;> aesop

lemma run_attempt_branch_ne_exhausted {h : ExtractHelpers} {a : Nat} {e : AttemptEvent}
    {fin : Bool} {r : ArticleResult} {b : ExitBranch}
    (hr : run_attempt h a e fin = some (r, b)) : b ≠ ExitBranch.exhausted := by
  cases e <;> simp only [run_attempt] at hr <;> (repeat' split at hr) <;> aesop

lemma run_attempt_wf {h : ExtractHelpers} {a : Nat} {e : AttemptEvent} {fin : Bool}
    {r : ArticleResult} {b : ExitBranch} (hr : run_attempt h a e fin = some (r, b)) :
    resultWF r := by
  unfold resultWF
  cases e <;> simp only [run_attempt] at hr <;> (repeat' split at hr) <;> aesop

lemma run_attempt_fail_none {h : ExtractHelpers} {a : Nat} {e : AttemptEvent}
    (hf : attemptSucceeds h e = false) : run_attempt h a e false = none := by
  cases e <;> simp only [run_attempt, attemptSucceeds] at hf ⊢ <;> (repeat' split) <;> aesop

lemma run_attempt_fail_success {h : ExtractHelpers} {a : Nat} {e : AttemptEvent} {fin : Bool}
    {r : ArticleResult} {b : ExitBranch} (hf : attemptSucceeds h e = false)
    (hr : run_attempt h a e fin = some (r, b)) : r.success = false := by
  cases e <;> simp only [run_attempt, attemptSucceeds] at hf hr <;> (repeat' split at hr) <;> aesop

lemma aux_article (h : ExtractHelpers) (a : Nat) (env : Nat → AttemptEvent) :
    ∀ rem att, ((parse_single_article_aux h a env att rem).1).article = a := by
  intro rem
  induction rem with
  | zero => intro att; rfl
  | succ n ih =>
    intro att
    simp only [parse_single_article_aux]
    cases hr : run_attempt h a (env att) (n == 0) with
    | none => simpa using ih (att + 1)
    | some rb =>
      obtain ⟨r, b⟩ := rb
      simpa using run_attempt_article hr

lemma aux_wf (h : ExtractHelpers) (a : Nat) (env : Nat → AttemptEvent) :
    ∀ rem att, resultWF ((parse_single_article_aux h a env att rem).1) := by
  intro rem
  induction rem with
  | zero => intro att; exact ⟨by simp [parse_single_article_aux], by simp [parse_single_article_aux]⟩
  | succ n ih =>
    intro att
    simp only [parse_single_article_aux]
    cases hr : run_attempt h a (env att) (n == 0) with
    | none => simpa using ih (att + 1)
    | some rb =>
      obtain ⟨r, b⟩ := rb
      simpa using run_attempt_wf hr

lemma aux_count_le (h : ExtractHelpers) (a : Nat) (env : Nat → AttemptEvent) :
    ∀ rem att, (parse_single_article_aux h a env att rem).2.2 ≤ rem := by
  intro rem
  induction rem with
  | zero => intro att; exact Nat.le_refl 0
  | succ n ih =>
    intro att
    simp only [parse_single_article_aux]
    cases hr : run_attempt h a (env att) (n == 0) with
    | none => simpa using Nat.succ_le_succ (ih (att + 1))
    | some rb => obtain ⟨r, b⟩ := rb; simp

lemma aux_fail_success (h : ExtractHelpers) (a : Nat) (env : Nat → AttemptEvent)
    (hf : ∀ i, attemptSucceeds h (env i) = false) :
    ∀ rem att, ((parse_single_article_aux h a env att rem).1).success = false := by
  intro rem
  induction rem with
  | zero => intro att; rfl
  | succ n ih =>
    intro att
    simp only [parse_single_article_aux]
    cases hr : run_attempt h a (env att) (n == 0) with
    | none => simpa using ih (att + 1)
    | some rb =>
      obtain ⟨r, b⟩ := rb
      simpa using run_attempt_fail_success (hf att) hr

lemma aux_ne_exhausted (h : ExtractHelpers) (a : Nat) (env : Nat → AttemptEvent) :
    ∀ rem att, 0 < rem →
      (parse_single_article_aux h a env att rem).2.1 ≠ ExitBranch.exhausted := by
  intro rem
  induction rem with
  | zero => intro att hlt; exact absurd hlt (by simp)
  | succ n ih =>
    intro att _
    simp only [parse_single_article_aux]
    cases hr : run_attempt h a (env att) (n == 0) with
    | some rb => obtain ⟨r, b⟩ := rb; simpa using run_attempt_branch_ne_exhausted hr
    | none =>
      cases n with
      | zero =>
        have hr2 : run_attempt h a (env att) true = none := hr
        exact absurd (run_attempt_final_isSome h a (env att)) (by simp [hr2])
      | succ m => simpa using ih (att + 1) (Nat.succ_pos m)

lemma lookupLast_article {results : List ArticleResult} {a : Nat} {r : ArticleResult}
    (hr : lookupLast results a = some r) : r.article = a := by
  have hm : r ∈ results.filter (fun x => x.article == a) :=
    List.mem_of_mem_getLast? (Option.mem_def.mpr hr)
  simpa using (List.mem_filter.mp hm).2

lemma lookupLast_mem {results : List ArticleResult} {a : Nat} {r : ArticleResult}
    (hr : lookupLast results a = some r) : r ∈ results :=
  List.mem_of_mem_filter (List.mem_of_mem_getLast? (Option.mem_def.mpr hr))

lemma lookupLast_isSome_iff (results : List ArticleResult) (a : Nat) :
    (lookupLast results a).isSome = true ↔ ∃ r ∈ results, r.article = a := by
  rw [lookupLast, List.getLast?_isSome]
  simp [List.filter_eq_nil_iff, List.eq_nil_iff_forall_not_mem]

lemma sort_map_article (results : List ArticleResult) (orig : List Nat) :
    (sort_results_by_original_order results orig).map (fun r => r.article) =
      orig.filter (fun a => (lookupLast results a).isSome) := by
  induction orig with
  | nil => rfl
  | cons a t ih =>
    simp only [sort_results_by_original_order, List.filterMap_cons, List.filter_cons] at ih ⊢
    cases hl : lookupLast results a with
    | none => simpa [hl] using ih
    | some r => simpa [hl, lookupLast_article hl] using ih

lemma mem_sort {results : List ArticleResult} {orig : List Nat} {r : ArticleResult}
    (hr : r ∈ sort_results_by_original_order results orig) :
    lookupLast results r.article = some r := by
  rcases List.mem_filterMap.mp hr with ⟨a, _, hfa⟩
  rw [lookupLast_article hfa]
  exact hfa

lemma collect_mem : ∀ {xs : List (Except String (List ArticleResult))}
    {L : List ArticleResult}, collect xs = .ok L →
    ∀ r, r ∈ L ↔ ∃ l, Except.ok l ∈ xs ∧ r ∈ l := by
  intro xs
  induction xs with
  | nil =>
    intro L hL r
    cases hL
    simp
  | cons x t ih =>
    intro L hL r
    cases x with
    | error m => exact absurd hL (by simp [collect])
    | ok l =>
      simp only [collect] at hL
      cases hc : collect t with
      | error m => rw [hc] at hL; cases hL
      | ok ls =>
        rw [hc] at hL
        cases hL
        simp only [List.mem_append, ih hc r, List.mem_cons]
        aesop

lemma collect_ok : ∀ (xs : List (Except String (List ArticleResult))),
    (∀ x ∈ xs, ∃ l, x = .ok l) → ∃ L, collect xs = .ok L := by
  intro xs
  induction xs with
  | nil => intro _; exact ⟨[], rfl⟩
  | cons x t ih =>
    intro hall
    rcases hall x (List.mem_cons_self x t) with ⟨l, rfl⟩
    rcases ih (fun y hy => hall y (List.mem_cons_of_mem _ hy)) with ⟨L, hL⟩
    exact ⟨l ++ L, by simp [collect, hL]⟩

lemma collect_err : ∀ {xs : List (Except String (List ArticleResult))} {m : String},
    Except.error m ∈ xs → exceptErr (collect xs) = true := by
  intro xs
  induction xs with
  | nil => intro m hm; cases hm
  | cons x t ih =>
    intro m hm
    cases x with
    | error k => simp [collect, exceptErr]
    | ok l =>
      rcases List.mem_cons.mp hm with h1 | h2
      · cases h1
      · have := ih h2
        simp only [collect]
        cases hc : collect t with
        | error k => simp [exceptErr]
        | ok ls => rw [hc] at this; exact absurd this (by simp [exceptErr])

lemma range_filterMap_getElem {α : Type} (l : List α) :
    (List.range l.length).filterMap (fun i => l[i]?) = l := by
  induction l with
  | nil => rfl
  | cons x t ih =>
    have hcomp : (fun i => (x :: t)[i]?) ∘ Nat.succ = fun i => t[i]? := by
      funext i
      simp
    have h0 : (fun i => (x :: t)[i]?) 0 = some x := by simp
    rw [List.length_cons, List.range_succ_eq_map, List.filterMap_cons_some h0,
      List.filterMap_map, hcomp, ih]

lemma completed_perm {α : Type} (runs : List α) (ord : List Nat)
    (hp : ord.Perm (List.range runs.length)) :
    (ord.filterMap (fun i => runs[i]?)).Perm runs := by
  have h1 := List.Perm.filterMap (fun i => runs[i]?) hp
  rwa [range_filterMap_getElem] at h1

lemma take_add_eq {α : Type} : ∀ (m : Nat) (l : List α) (n : Nat),
    l.take (m + n) = l.take m ++ (l.drop m).take n := by
  intro m
  induction m with
  | zero => intro l n; simp
  | succ k ih =>
    intro l n
    cases l with
    | nil => simp
    | cons a t =>
      have hadd : k + 1 + n = (k + n) + 1 := by omega
      rw [hadd, List.take_succ_cons, List.take_succ_cons, List.drop_succ_cons,
        List.cons_append, ih]

lemma chunkLoop_nil (cap maxW : Nat) : ∀ fuel n, chunkLoop cap maxW fuel [] n = [] := by
  intro fuel n
  cases fuel <;> rfl

lemma chunkLoop_spec (cap maxW : Nat) (hcap : 0 < cap) :
    ∀ fuel (l : List Nat) (n : Nat), l.length ≤ fuel → l ≠ [] → n < maxW →
      (chunkLoop cap maxW fuel l n).flatten =
          l.take (cap * (chunkLoop cap maxW fuel l n).length) ∧
      n + (chunkLoop cap maxW fuel l n).length ≤ maxW ∧
      (n + (chunkLoop cap maxW fuel l n).length = maxW ∨
        l.length ≤ cap * (chunkLoop cap maxW fuel l n).length) ∧
      ∀ g ∈ chunkLoop cap maxW fuel l n, g.length ≤ cap ∧ g ≠ [] := by
  intro fuel
  induction fuel with
  | zero =>
    intro l n hlen hne _
    cases l with
    | nil => exact absurd rfl hne
    | cons a t => simp at hlen
  | succ f ih =>
    intro l n hlen hne hn
    cases l with
    | nil => exact absurd rfl hne
    | cons a rest =>
      have htake_ne : (a :: rest).take cap ≠ [] := by
        cases cap with
        | zero => exact absurd hcap (by simp)
        | succ c => simp
      have htake_le : ((a :: rest).take cap).length ≤ cap := by
        simp [List.length_take]
      simp only [chunkLoop]
      by_cases hb : maxW ≤ n + 1
      · rw [if_pos hb]
        have hmw : n + 1 = maxW := Nat.le_antisymm hn hb
        refine ⟨by simp [Nat.mul_one], by simpa using hn, Or.inl (by simpa using hmw), ?_⟩
        intro g hg
        rw [List.mem_singleton] at hg
        exact hg ▸ ⟨htake_le, htake_ne⟩
      · rw [if_neg hb]
        have hn1 : n + 1 < maxW := by omega
        by_cases hdrop : (a :: rest).drop cap = []
        · rw [hdrop, chunkLoop_nil]
          have hlen_le : (a :: rest).length ≤ cap := List.drop_eq_nil_iff.mp hdrop
          refine ⟨by simp [Nat.mul_one], ?_, Or.inr (by simpa [Nat.mul_one] using hlen_le), ?_⟩
          · simpa using Nat.le_of_lt hn1
          · intro g hg
            rw [List.mem_singleton] at hg
            exact hg ▸ ⟨htake_le, htake_ne⟩
        · have hlt : cap < (a :: rest).length := by
            by_contra hcon
            exact hdrop (List.drop_eq_nil_iff.mpr (Nat.le_of_not_lt hcon))
          have hlen' : ((a :: rest).drop cap).length ≤ f := by
            rw [List.length_drop]
            omega
          obtain ⟨H1, H2, H3, H4⟩ := ih ((a :: rest).drop cap) (n + 1) hlen' hdrop hn1
          set gs := chunkLoop cap maxW f ((a :: rest).drop cap) (n + 1) with hgs
          refine ⟨?_, ?_, ?_, ?_⟩
          · simp only [List.flatten_cons, List.length_cons]
            rw [H1, Nat.mul_succ, Nat.add_comm (cap * gs.length) cap, take_add_eq]
          · simp only [List.length_cons]
            omega
          · simp only [List.length_cons]
            rcases H3 with h | h
            · exact Or.inl (by omega)
            · refine Or.inr ?_
              rw [List.length_drop] at h
              have hsum : (a :: rest).length ≤ cap * gs.length + cap := by omega
              calc (a :: rest).length ≤ cap * gs.length + cap := hsum
              _ = cap * (gs.length + 1) := by rw [Nat.mul_succ]
          · intro g hg
            rcases List.mem_cons.mp hg with h | h
            · exact h ▸ ⟨htake_le, htake_ne⟩
            · exact H4 g h

lemma parse_single_article_article (h : ExtractHelpers) (a : Nat)
    (env : Nat → AttemptEvent) (mr : Nat) : (parse_single_article h a env mr).article = a :=
  aux_article h a env mr 0

lemma worker_run (h : ExtractHelpers) (env : Nat → Nat → AttemptEvent) (mr : Nat)
    (articles : List Nat) :
    OzonWorker.parse_articles { driver := some () } h env mr articles =
      .ok (articles.enum.map (fun p => parse_single_article h p.2 (env p.1) mr)) := by
  simp [OzonWorker.parse_articles]

lemma worker_results_map_article (h : ExtractHelpers) (env : Nat → Nat → AttemptEvent)
    (mr : Nat) (articles : List Nat) :
    (articles.enum.map (fun p => parse_single_article h p.2 (env p.1) mr)).map
        (fun r => r.article) = articles := by
  rw [List.map_map]
  have hfun : ((fun r : ArticleResult => r.article) ∘
      (fun p : Nat × Nat => parse_single_article h p.2 (env p.1) mr)) = Prod.snd := by
    funext p
    exact parse_single_article_article h p.2 (env p.1) mr
  rw [hfun, List.enum_eq_enumFrom, List.enumFrom_map_snd]

lemma parse_worker_group_ok_map {e : ParserEnv} {h : ExtractHelpers} {mr : Nat}
    {gi : Nat} {g : List Nat} {l : List ArticleResult}
    (hok : parse_worker_group e h mr gi g = .ok l) :
    l.map (fun r => r.article) = g := by
  unfold parse_worker_group at hok
  by_cases hi : e.initOk gi
  · rw [if_pos hi, worker_run] at hok
    cases hok
    exact worker_results_map_article h (e.events gi) mr g
  · rw [if_neg hi] at hok
    cases hok

lemma parse_articles_single {e : ParserEnv} {h : ExtractHelpers}
    {cap maxW mr : Nat} {articles : List Nat}
    (hone : (distribute_articles cap maxW articles).length = 1) :
    OzonParser.parse_articles e h cap maxW mr articles =
      parse_with_single_worker e h mr articles := by
  simp [OzonParser.parse_articles, hone]

lemma parse_articles_multi {e : ParserEnv} {h : ExtractHelpers}
    {cap maxW mr : Nat} {articles : List Nat}
    (hne : (distribute_articles cap maxW articles).length ≠ 1) :
    OzonParser.parse_articles e h cap maxW mr articles =
      parse_with_multiple_workers e h mr (distribute_articles cap maxW articles) articles := by
  simp [OzonParser.parse_articles, hne]

lemma single_ok_inv {e : ParserEnv} {h : ExtractHelpers} {mr : Nat}
    {articles : List Nat} {out : List ArticleResult}
    (hok : parse_with_single_worker e h mr articles = .ok out) :
    out = articles.enum.map (fun p => parse_single_article h p.2 (e.events 0 p.1) mr) := by
  unfold parse_with_single_worker parse_worker_group at hok
  by_cases hi : e.initOk 0
  · rw [if_pos hi, worker_run] at hok
    cases hok
    rfl
  · rw [if_neg hi] at hok
    cases hok

lemma multi_ok_inv {e : ParserEnv} {h : ExtractHelpers} {mr : Nat}
    {groups : List (List Nat)} {orig : List Nat} {out : List ArticleResult}
    (hok : parse_with_multiple_workers e h mr groups orig = .ok out) :
    ∃ all, collect (completedRuns e h mr groups) = .ok all ∧
      out = sort_results_by_original_order all orig := by
  unfold parse_with_multiple_workers at hok
  cases hc : collect (completedRuns e h mr groups) with
  | error m => rw [hc] at hok; cases hok
  | ok all => rw [hc] at hok; cases hok; exact ⟨all, rfl, rfl⟩

lemma mem_completedRuns {e : ParserEnv} {h : ExtractHelpers} {mr : Nat}
    {groups : List (List Nat)} {x : Except String (List ArticleResult)}
    (hx : x ∈ completedRuns e h mr groups) : x ∈ groupRuns e h mr groups := by
  rcases List.mem_filterMap.mp hx with ⟨i, _, hi⟩
  exact List.getElem?_mem hi

lemma mem_groupRuns {e : ParserEnv} {h : ExtractHelpers} {mr : Nat}
    {groups : List (List Nat)} {x : Except String (List ArticleResult)}
    (hx : x ∈ groupRuns e h mr groups) :
    ∃ gi g, g ∈ groups ∧ x = parse_worker_group e h mr gi g := by
  rcases List.mem_map.mp hx with ⟨p, hp, hpx⟩
  obtain ⟨i, g⟩ := p
  have hg : groups[i]? = some g := List.mk_mem_enum_iff_getElem?.mp hp
  exact ⟨i, g, List.getElem?_mem hg, hpx.symm⟩


lemma extract_isSome_congr (h h2 : ExtractHelpers) (p : String)
    (e1 : h2.is_valid_json_response = h.is_valid_json_response)
    (e2 : h2.json_loads_widget_states = h.json_loads_widget_states)
    (e3 : h2.find_web_price_property = h.find_web_price_property)
    (e4 : h2.parse_price_data = h.parse_price_data) :
    (extract_price_info h2 p).isSome = (extract_price_info h p).isSome := by
  unfold extract_price_info
  rw [e1, e2, e3, e4]
  cases h.json_loads_widget_states p with
  | none => simp
  | some ws =>
    by_cases he : ws.isEmpty <;> simp only [he]
    · split <;> rfl
    · split
      · rfl
      · cases hf : h.find_web_price_property ws with
        | none => rfl
        | some v =>
          by_cases hv : v = "" <;> simp only [hv]
          · simp
          · split
            · rfl
            · cases hp : h.parse_price_data v with
              | none => rfl
              | some pi0 =>
                cases ht1 : h2.find_product_title ws <;> cases ht2 : h.find_product_title ws <;>
                  (repeat' split) <;> rfl

/-- C7: the payload extractor returns `none` on invalid JSON, on decode
failure, on missing or empty widget states, on a missing or falsy webPrice
entry, and on price-parse failure; it returns a `PriceInfo` only when
`parse_price_data` has produced one (possibly enriched with a title); and
dropping the title finder never turns a `some` result into `none`. -/
theorem claim_C7_extract_contract (h : ExtractHelpers) (p : String) :
    (h.is_valid_json_response p = false → extract_price_info h p = none) ∧
    (h.json_loads_widget_states p = none → extract_price_info h p = none) ∧
    (∀ ws, h.json_loads_widget_states p = some ws → ws.isEmpty = true →
      extract_price_info h p = none) ∧
    (∀ ws, h.json_loads_widget_states p = some ws → h.find_web_price_property ws = none →
      extract_price_info h p = none) ∧
    (∀ ws, h.json_loads_widget_states p = some ws →
      h.find_web_price_property ws = some "" → extract_price_info h p = none) ∧
    (∀ ws v, h.json_loads_widget_states p = some ws →
      h.find_web_price_property ws = some v → h.parse_price_data v = none →
      extract_price_info h p = none) ∧
    (∀ pi, extract_price_info h p = some pi →
      ∃ ws v pi0, h.json_loads_widget_states p = some ws ∧
        h.find_web_price_property ws = some v ∧ h.parse_price_data v = some pi0 ∧
        (pi = pi0 ∨ ∃ t, pi = { pi0 with title := some t })) ∧
    ((extract_price_info { h with find_product_title := fun _ => none } p).isSome =
      (extract_price_info h p).isSome) := by
  refine ⟨?_, ?_, ?_, ?_, ?_, ?_, ?_, ?_⟩
  · intro hv
    simp [extract_price_info, hv]
  · intro hj
    unfold extract_price_info
    rw [hj]
    split <;> rfl
  · intro ws hj he
    unfold extract_price_info
    rw [hj]
    simp only [he]
    split <;> simp
  · intro ws hj hf
    simp [extract_price_info, hj, hf]
  · intro ws hj hf
    simp [extract_price_info, hj, hf]
  · intro ws v hj hf hp
    simp [extract_price_info, hj, hf, hp]
  · intro pi hpi
    unfold extract_price_info at hpi
    (repeat' split at hpi) <;> (try cases hpi) <;> aesop
  · exact extract_isSome_congr h _ p rfl rfl rfl rfl

theorem claim_C7_witness : extract_price_info hBad "x" = none :=
  (claim_C7_extract_contract hBad "x").1 rfl

/-- C8: the extractor is a pure function of its payload (and the helper
functions): it reads no worker state, so its result is identical across
worker instances and across repeated runs on the same payload. -/
theorem claim_C8_extract_pure (w1 w2 : OzonWorker) (h : ExtractHelpers) (p : String) :
    w1.extract_price_info h p = w2.extract_price_info h p ∧
    w1.extract_price_info h p = extract_price_info h p :=
  ⟨rfl, rfl⟩

/-- C3: when no attempt can succeed, `parse_single_article` runs the
pipeline at most `MAX_RETRIES` times and returns a failed `ArticleResult`
(it is a total function, so it always terminates and raises nothing). -/
theorem claim_C3_retry_bound (h : ExtractHelpers) (a : Nat) (env : Nat → AttemptEvent)
    (mr : Nat) (hf : ∀ i, attemptSucceeds h (env i) = false) :
    (parse_single_article h a env mr).success = false ∧ attemptsUsed h a env mr ≤ mr :=
  ⟨aux_fail_success h a env hf mr 0, aux_count_le h a env mr 0⟩

theorem claim_C3_witness :
    (parse_single_article hOk 7 (fun _ => AttemptEvent.navFail) 2).success = false ∧
      attemptsUsed hOk 7 (fun _ => AttemptEvent.navFail) 2 ≤ 2 :=
  claim_C3_retry_bound hOk 7 (fun _ => AttemptEvent.navFail) 2 (fun _ => rfl)

/-- C6: every `ArticleResult` the program constructs (all construction
sites of the source are the return statements of `parse_single_article`)
has `price_info` populated and `error` absent exactly when `success` is
true, and `error` populated and `price_info` absent exactly when it is
false. -/
theorem claim_C6_result_invariant (h : ExtractHelpers) (a : Nat)
    (env : Nat → AttemptEvent) (mr : Nat) :
    resultWF (parse_single_article h a env mr) :=
  aux_wf h a env mr 0

theorem claim_C6_witness :
    resultWF (parse_single_article hOk 5 (fun _ => AttemptEvent.navFail) 1) :=
  claim_C6_result_invariant hOk 5 (fun _ => AttemptEvent.navFail) 1

/-- C9: with at least one configured retry, `parse_single_article` always
returns from an explicit terminal branch of the loop body; the fallback
`Max retries exceeded` return after the loop is unreachable. -/
theorem claim_C9_fallback_unreachable (h : ExtractHelpers) (a : Nat)
    (env : Nat → AttemptEvent) (mr : Nat) (hmr : 1 ≤ mr) :
    exitBranchOf h a env mr ≠ ExitBranch.exhausted :=
  aux_ne_exhausted h a env mr 0 hmr

theorem claim_C9_witness :
    exitBranchOf hOk 7 (fun _ => AttemptEvent.navFail) 1 ≠ ExitBranch.exhausted :=
  claim_C9_fallback_unreachable hOk 7 (fun _ => AttemptEvent.navFail) 1 (by decide)

/-- C10: an initialized worker returns one result per assigned article,
in order, the i-th result carrying the i-th article; equivalently the
article projection of its output is the input list itself. -/
theorem claim_C10_worker_completeness (w : OzonWorker) (h : ExtractHelpers)
    (env : Nat → Nat → AttemptEvent) (mr : Nat) (articles : List Nat)
    (hw : w.driver = some ()) :
    (w.parse_articles h env mr articles).map (fun l => l.map (fun r => r.article)) =
      .ok articles := by
  cases w with
  | mk dr =>
    cases hw
    rw [worker_run]
    simp only [Except.map]
    rw [worker_results_map_article]

theorem claim_C10_witness :
    (OzonWorker.parse_articles { driver := some () } hOk (fun _ _ => AttemptEvent.payload "x")
        1 [4, 5, 6]).map (fun l => l.map (fun r => r.article)) = .ok [4, 5, 6] :=
  claim_C10_worker_completeness { driver := some () } hOk
    (fun _ _ => AttemptEvent.payload "x") 1 [4, 5, 6] rfl


lemma groupRuns_length (e : ParserEnv) (h : ExtractHelpers) (mr : Nat)
    (groups : List (List Nat)) : (groupRuns e h mr groups).length = groups.length := by
  simp [groupRuns]

lemma groupRuns_order_irrel (e : ParserEnv) (o2 : List Nat) (h : ExtractHelpers) (mr : Nat)
    (groups : List (List Nat)) :
    groupRuns { e with order := o2 } h mr groups = groupRuns e h mr groups := rfl

lemma completedRuns_eq (e : ParserEnv) (h : ExtractHelpers) (mr : Nat)
    (groups : List (List Nat)) :
    completedRuns e h mr groups = e.order.filterMap (fun i => (groupRuns e h mr groups)[i]?) :=
  rfl

lemma collect_all_mem_iff {e : ParserEnv} {h : ExtractHelpers} {mr : Nat}
    {groups : List (List Nat)} {all : List ArticleResult}
    (hord : e.order.Perm (List.range groups.length))
    (hc : collect (completedRuns e h mr groups) = .ok all) :
    ∀ r, r ∈ all ↔ ∃ l, Except.ok l ∈ groupRuns e h mr groups ∧ r ∈ l := by
  intro r
  rw [collect_mem hc r]
  have hperm : (completedRuns e h mr groups).Perm (groupRuns e h mr groups) := by
    rw [completedRuns_eq]
    exact completed_perm _ _ (by rwa [groupRuns_length])
  constructor
  · rintro ⟨l, hl, hrl⟩
    exact ⟨l, hperm.mem_iff.mp hl, hrl⟩
  · rintro ⟨l, hl, hrl⟩
    exact ⟨l, hperm.mem_iff.mpr hl, hrl⟩

lemma multi_out_articles {e : ParserEnv} {h : ExtractHelpers} {mr : Nat}
    {groups : List (List Nat)} {orig : List Nat} {out : List ArticleResult}
    (hok : parse_with_multiple_workers e h mr groups orig = .ok out) :
    ∀ r ∈ out, r.article ∈ groups.flatten := by
  intro r hr
  obtain ⟨all, hc, hout⟩ := multi_ok_inv hok
  subst hout
  have hrall : r ∈ all := lookupLast_mem (mem_sort hr)
  rcases (collect_mem hc r).mp hrall with ⟨l, hl, hrl⟩
  rcases mem_groupRuns (mem_completedRuns hl) with ⟨gi, g, hg, hx⟩
  have hmap := parse_worker_group_ok_map hx.symm
  have hag : r.article ∈ g := hmap ▸ List.mem_map_of_mem (fun r => r.article) hrl
  exact List.mem_flatten_of_mem hg hag

/-- C1: whenever `parse_articles` returns a result list, the sequence of
identifiers in that list is an order-preserving sub-sequence of the input,
and it does not depend on the order in which the worker futures complete:
two runs differing only in completion order produce the same identifier
sequence. -/
theorem claim_C1_order_stable (e : ParserEnv) (o2 : List Nat) (h : ExtractHelpers)
    (cap maxW mr : Nat) (articles : List Nat) (out out2 : List ArticleResult)
    (hp1 : e.order.Perm (List.range (distribute_articles cap maxW articles).length))
    (hp2 : o2.Perm (List.range (distribute_articles cap maxW articles).length))
    (h1 : OzonParser.parse_articles e h cap maxW mr articles = .ok out)
    (h2 : OzonParser.parse_articles { e with order := o2 } h cap maxW mr articles = .ok out2) :
    (out.map (fun r => r.article)).Sublist articles ∧
      out.map (fun r => r.article) = out2.map (fun r => r.article) := by
  by_cases hone : (distribute_articles cap maxW articles).length = 1
  · rw [parse_articles_single hone] at h1 h2
    have e1 := single_ok_inv h1
    have e2 := single_ok_inv h2
    have heo : ({ e with order := o2 } : ParserEnv).events = e.events := rfl
    rw [heo] at e2
    subst e1
    subst e2
    rw [worker_results_map_article]
    exact ⟨List.Sublist.refl articles, rfl⟩
  · rw [parse_articles_multi hone] at h1 h2
    obtain ⟨all1, hc1, hout1⟩ := multi_ok_inv h1
    obtain ⟨all2, hc2, hout2⟩ := multi_ok_inv h2
    subst hout1
    subst hout2
    have hm1 := collect_all_mem_iff hp1 hc1
    have hm2 : ∀ r, r ∈ all2 ↔
        ∃ l, Except.ok l ∈ groupRuns e h mr (distribute_articles cap maxW articles) ∧ r ∈ l := by
      have := collect_all_mem_iff (e := { e with order := o2 }) hp2 hc2
      simpa [groupRuns_order_irrel] using this
    have hpoint : ∀ a, (lookupLast all1 a).isSome = (lookupLast all2 a).isSome := by
      intro a
      have hiff : ((lookupLast all1 a).isSome = true) ↔ ((lookupLast all2 a).isSome = true) := by
        rw [lookupLast_isSome_iff, lookupLast_isSome_iff]
        constructor
        · rintro ⟨r, hr, ha⟩
          rcases (hm1 r).mp hr with ⟨l, hl, hrl⟩
          exact ⟨r, (hm2 r).mpr ⟨l, hl, hrl⟩, ha⟩
        · rintro ⟨r, hr, ha⟩
          rcases (hm2 r).mp hr with ⟨l, hl, hrl⟩
          exact ⟨r, (hm1 r).mpr ⟨l, hl, hrl⟩, ha⟩
      cases hb1 : (lookupLast all1 a).isSome <;> cases hb2 : (lookupLast all2 a).isSome <;>
        simp_all
    rw [sort_map_article, sort_map_article]
    constructor
    · exact List.filter_sublist articles
    · exact List.filter_congr (fun a _ => hpoint a)

theorem claim_C1_witness :
    (([{ article := 3, success := true, price_info := some { price := 999 } },
       { article := 4, success := true, price_info := some { price := 999 } }] :
        List ArticleResult).map (fun r => r.article)).Sublist [3, 4] ∧
      ([{ article := 3, success := true, price_info := some { price := 999 } },
        { article := 4, success := true, price_info := some { price := 999 } }] :
          List ArticleResult).map (fun r => r.article) =
        ([{ article := 3, success := true, price_info := some { price := 999 } },
          { article := 4, success := true, price_info := some { price := 999 } }] :
            List ArticleResult).map (fun r => r.article) :=
  claim_C1_order_stable envAllOk [1, 0] hOk 1 2 1 [3, 4]
    [{ article := 3, success := true, price_info := some { price := 999 } },
     { article := 4, success := true, price_info := some { price := 999 } }]
    [{ article := 3, success := true, price_info := some { price := 999 } },
     { article := 4, success := true, price_info := some { price := 999 } }]
    (by decide) (by decide) rfl rfl

/-- C2 as stated is false: with `cap = 1`, `maxWorkers = 1` and input
`[1, 2]`, distribution forms the single group `[[1]]`, so the identifier
`2` (at index `1 ≥ cap * maxWorkers`) is never assigned to any group; yet
because exactly one group was formed, `parse_articles` hands the FULL
input list to the single inline worker, and `2` appears in the output. -/
theorem claim_C2_counterexample :
    distribute_articles 1 1 [1, 2] = [[1]] ∧
      (OzonParser.parse_articles envAllOk hOk 1 1 1 [1, 2]).map
          (fun l => l.map (fun r => r.article)) = .ok [1, 2] :=
  ⟨rfl, rfl⟩

/-- C2 amended: with `0 < cap` and `0 < maxWorkers`, an input of length at
most `cap` forms one group and is processed inline; a longer input is cut
into consecutive contiguous chunks of size at most `cap` in original
order, the chunking stopping at `maxWorkers` chunks or when the input is
exhausted, so the assigned identifiers are exactly a prefix of length
`cap * numberOfGroups ≤ cap * maxWorkers`; and whenever MORE than one
group is formed, every identifier value in the output occurs among the
assigned prefix (an identifier occurring only beyond it is dropped).  When
exactly one chunk results from a long input (`maxWorkers = 1`), the source
passes the whole input to the inline worker and nothing is dropped. -/
theorem claim_C2_amended (e : ParserEnv) (h : ExtractHelpers)
    (cap maxW mr : Nat) (articles : List Nat) (hcap : 0 < cap) (hmw : 0 < maxW) :
    (articles.length ≤ cap →
      distribute_articles cap maxW articles = [articles] ∧
      OzonParser.parse_articles e h cap maxW mr articles =
        parse_with_single_worker e h mr articles) ∧
    (cap < articles.length →
      (distribute_articles cap maxW articles).flatten =
          articles.take (cap * (distribute_articles cap maxW articles).length) ∧
      (distribute_articles cap maxW articles).length ≤ maxW ∧
      ((distribute_articles cap maxW articles).length = maxW ∨
        articles.length ≤ cap * (distribute_articles cap maxW articles).length) ∧
      (∀ g ∈ distribute_articles cap maxW articles, g.length ≤ cap) ∧
      ((distribute_articles cap maxW articles).length ≠ 1 →
        ∀ out, OzonParser.parse_articles e h cap maxW mr articles = .ok out →
          ∀ r ∈ out, r.article ∈ (distribute_articles cap maxW articles).flatten)) := by
  constructor
  · intro hle
    have hd : distribute_articles cap maxW articles = [articles] := by
      simp [distribute_articles, hle]
    exact ⟨hd, parse_articles_single (by rw [hd]; rfl)⟩
  · intro hgt
    have hne : articles ≠ [] := by
      intro hnil
      rw [hnil] at hgt
      simp at hgt
    have hd : distribute_articles cap maxW articles =
        chunkLoop cap maxW articles.length articles 0 := by
      simp [distribute_articles, Nat.not_le_of_lt hgt]
    obtain ⟨H1, H2, H3, H4⟩ :=
      chunkLoop_spec cap maxW hcap articles.length articles 0 (Nat.le_refl _) hne hmw
    rw [hd]
    refine ⟨H1, by simpa using H2, by simpa using H3, fun g hg => (H4 g hg).1, ?_⟩
    intro hne1 out hok r hr
    rw [← hd] at hne1
    rw [parse_articles_multi hne1] at hok
    rw [← hd]
    exact multi_out_articles hok r hr

theorem claim_C2_witness :
    (distribute_articles 1 2 [5, 6, 7]).flatten =
        [5, 6, 7].take (1 * (distribute_articles 1 2 [5, 6, 7]).length) ∧
      (distribute_articles 1 2 [5, 6, 7]).length ≤ 2 :=
  ⟨((claim_C2_amended envAllOk hOk 1 2 1 [5, 6, 7] (by decide) (by decide)).2
      (by decide)).1,
    ((claim_C2_amended envAllOk hOk 1 2 1 [5, 6, 7] (by decide) (by decide)).2
      (by decide)).2.1⟩

/-- C4 as stated is false: with two groups (`cap = 1`, `maxWorkers = 2`,
input `[10, 20]`) and the worker of group 0 failing to initialize while
group 1 succeeds, `parse_articles` does not return the surviving group's
results — the exception re-raised by `future.result()` propagates out of
the whole batch call. -/
theorem claim_C4_counterexample :
    OzonParser.parse_articles envInit0Fails hOk 1 2 1 [10, 20] =
      .error "Failed to initialize worker" :=
  rfl

/-- C4 amended: if, in a multi-group batch, the worker of some group
fails to initialize, then the whole `parse_articles` call raises (the
exception from that group's `future.result()` propagates); no group's
results are returned. -/
theorem claim_C4_amended (e : ParserEnv) (h : ExtractHelpers)
    (cap maxW mr : Nat) (articles : List Nat) (gi : Nat)
    (hne : (distribute_articles cap maxW articles).length ≠ 1)
    (hgi : gi < (distribute_articles cap maxW articles).length)
    (hfail : e.initOk gi = false)
    (hord : e.order.Perm (List.range (distribute_articles cap maxW articles).length)) :
    exceptErr (OzonParser.parse_articles e h cap maxW mr articles) = true := by
  rw [parse_articles_multi hne]
  set groups := distribute_articles cap maxW articles with hgroups
  have hrun : (groupRuns e h mr groups)[gi]? =
      some (Except.error "Failed to initialize worker") := by
    have hgg : groups.enum[gi]? = some (gi, groups[gi]) := by
      rw [List.getElem?_enum, List.getElem?_eq_getElem hgi]
      rfl
    rw [groupRuns, List.getElem?_map, hgg]
    simp [parse_worker_group, hfail]
  have hmemord : gi ∈ e.order := hord.mem_iff.mpr (List.mem_range.mpr hgi)
  have hmem : Except.error "Failed to initialize worker" ∈ completedRuns e h mr groups := by
    rw [completedRuns_eq]
    exact List.mem_filterMap.mpr ⟨gi, hmemord, hrun⟩
  have herr := collect_err hmem
  unfold parse_with_multiple_workers
  cases hc : collect (completedRuns e h mr groups) with
  | error m => simp [exceptErr]
  | ok all =>
    rw [hc] at herr
    exact absurd herr (by simp [exceptErr])

theorem claim_C4_witness :
    exceptErr (OzonParser.parse_articles envInit0Fails hOk 1 2 1 [10, 20]) = true :=
  claim_C4_amended envInit0Fails hOk 1 2 1 [10, 20] 0 (by decide) (by decide) rfl
    (by decide)

/-- C5 as stated is false: with a duplicate input processed by the
single-worker inline path (one group, no merge-by-value), each occurrence
is parsed independently; here the first occurrence of article 1 succeeds
and the second permanently fails navigation, so the two occurrences of
the same identifier value carry different results. -/
theorem claim_C5_counterexample :
    OzonParser.parse_articles envPosFail hOk 2 2 1 [1, 1] =
      .ok [{ article := 1, success := true, price_info := some { price := 999 } },
           { article := 1, success := false, error := some "Failed to navigate to URL" }] ∧
      ({ article := 1, success := true, price_info := some { price := 999 } } :
          ArticleResult) ≠
        { article := 1, success := false, error := some "Failed to navigate to URL" } :=
  ⟨rfl, by decide⟩

/-- C5 amended: when the batch is processed by multiple workers (more
than one group), the merge looks results up by identifier value, so all
occurrences of the same identifier value in the output carry the same
result; in the single-group inline path each occurrence is parsed
independently and duplicates may differ. -/
theorem claim_C5_amended (e : ParserEnv) (h : ExtractHelpers)
    (cap maxW mr : Nat) (articles : List Nat) (out : List ArticleResult)
    (hne : (distribute_articles cap maxW articles).length ≠ 1)
    (hok : OzonParser.parse_articles e h cap maxW mr articles = .ok out) :
    ∀ r1 ∈ out, ∀ r2 ∈ out, r1.article = r2.article → r1 = r2 := by
  rw [parse_articles_multi hne] at hok
  obtain ⟨all, hc, hout⟩ := multi_ok_inv hok
  subst hout
  intro r1 h1 r2 h2 heq
  have e1 := mem_sort h1
  have e2 := mem_sort h2
  rw [heq] at e1
  exact Option.some.inj (e1.symm.trans e2)

theorem claim_C5_witness :
    ({ article := 1, success := true, price_info := some { price := 999 } } :
        ArticleResult) =
      { article := 1, success := true, price_info := some { price := 999 } } :=
  claim_C5_amended envAllOk hOk 1 2 1 [1, 1]
    [{ article := 1, success := true, price_info := some { price := 999 } },
     { article := 1, success := true, price_info := some { price := 999 } }]
    (by decide) rfl
    { article := 1, success := true, price_info := some { price := 999 } } (by decide)
    { article := 1, success := true, price_info := some { price := 999 } } (by decide)
    rfl

end OzonPriceParser
